import Mathlib

/-!
Verification development for the Sheepshead rule engine
(`src/game/deck.js`, `src/game/constants.js`, `src/game/SheepsheadGame.js`).

The JavaScript sources are shallowly embedded below.  Cards are records of
suit, rank and a stored `points` field, exactly as the deck builder creates
them; the JS card id string `"RANK_suit"` is modelled by the pair
`(rank, suit)`, which the string determines and is determined by.  Player
ids are natural numbers, hands and trick tallies are functions from player
ids to lists, mirroring the JS objects keyed by player id (for games whose
five player ids are distinct this is an exact model).  Each mutating
operation of the `SheepsheadGame` class becomes a pure function from a
state and its arguments to a pair of the new state and a discriminated
result, with the same check-and-mutate order as the source.
-/

inductive Suit where
  | diamonds
  | hearts
  | spades
  | clubs
deriving DecidableEq, Repr

inductive Rank where
  | r7
  | r8
  | r9
  | r10
  | J
  | Q
  | K
  | A
deriving DecidableEq, Repr

/-- `POINT_VALUES` from `constants.js`. -/
def pointValue : Rank → Nat
  | Rank.r7 => 0
  | Rank.r8 => 0
  | Rank.r9 => 0
  | Rank.r10 => 10
  | Rank.J => 2
  | Rank.Q => 3
  | Rank.K => 4
  | Rank.A => 11

/-- A card as `createDeck` builds it: suit, rank and a stored point value. -/
structure Card where
  suit : Suit
  rank : Rank
  points : Nat
deriving DecidableEq, Repr

/-- The JS card id string `rank_suit`, modelled as the (rank, suit) pair. -/
abbrev CardId := Rank × Suit

def Card.cid (c : Card) : CardId := (c.rank, c.suit)

/-- Build a card the way `createDeck` (and the test helpers) do. -/
def mkCard (r : Rank) (s : Suit) : Card := { suit := s, rank := r, points := pointValue r }

/-- `FAIL_SUITS` from `constants.js`. -/
def FAIL_SUITS : List Suit := [Suit.hearts, Suit.spades, Suit.clubs]

/-- `TRUMP_ORDER` from `constants.js` (lowest to highest). -/
def TRUMP_ORDER : List (Suit × Rank) :=
  [ (Suit.diamonds, Rank.r7), (Suit.diamonds, Rank.r8), (Suit.diamonds, Rank.r9),
    (Suit.diamonds, Rank.K), (Suit.diamonds, Rank.r10), (Suit.diamonds, Rank.A),
    (Suit.diamonds, Rank.J), (Suit.hearts, Rank.J), (Suit.spades, Rank.J),
    (Suit.clubs, Rank.J),
    (Suit.diamonds, Rank.Q), (Suit.hearts, Rank.Q), (Suit.spades, Rank.Q),
    (Suit.clubs, Rank.Q) ]

/-- `FAIL_ORDER` from `constants.js` (lowest to highest). -/
def FAIL_ORDER : List Rank := [Rank.r7, Rank.r8, Rank.r9, Rank.K, Rank.r10, Rank.A]

/-- `isTrump` from `deck.js`: all Queens, all Jacks, all diamonds. -/
def isTrump (c : Card) : Bool :=
  decide (c.rank = Rank.Q) || decide (c.rank = Rank.J) || decide (c.suit = Suit.diamonds)

/-- `getTrumpPower` from `deck.js`: index in `TRUMP_ORDER`, `-1` if absent. -/
def getTrumpPower (c : Card) : Int :=
  match TRUMP_ORDER.findIdx? (fun p => decide (p.1 = c.suit) && decide (p.2 = c.rank)) with
  | some i => (i : Int)
  | none => -1

/-- `getFailPower` from `deck.js`: index of the rank in `FAIL_ORDER`, `-1` for trump. -/
def getFailPower (c : Card) : Int :=
  if isTrump c then -1
  else
    match FAIL_ORDER.findIdx? (fun r => decide (r = c.rank)) with
    | some i => (i : Int)
    | none => -1

/-- Effective suit: the JS string `trump` or the card's printed suit. -/
inductive ESuit where
  | trump
  | fail (s : Suit)
deriving DecidableEq, Repr

/-- `getEffectiveSuit` from `deck.js`. -/
def getEffectiveSuit (c : Card) : ESuit :=
  if isTrump c then ESuit.trump else ESuit.fail c.suit

/-- `compareCards` from `deck.js`: positive iff the first card wins. -/
def compareCards (c1 c2 : Card) (leadSuit : ESuit) : Int :=
  if isTrump c1 && !(isTrump c2) then 1
  else if !(isTrump c1) && isTrump c2 then -1
  else if isTrump c1 && isTrump c2 then getTrumpPower c1 - getTrumpPower c2
  else
    if decide (getEffectiveSuit c1 = leadSuit) && !(decide (getEffectiveSuit c2 = leadSuit)) then 1
    else if !(decide (getEffectiveSuit c1 = leadSuit)) && decide (getEffectiveSuit c2 = leadSuit) then -1
    else if decide (getEffectiveSuit c1 = leadSuit) && decide (getEffectiveSuit c2 = leadSuit) then
      getFailPower c1 - getFailPower c2
    else 1

abbrev PlayerId := Nat

/-- One play of a trick: `{playerId, card, isUnderCard}`. -/
structure Play where
  playerId : PlayerId
  card : Card
  isUnderCard : Bool
deriving DecidableEq, Repr

/-- `determineTrickWinner` from `deck.js`: fold over the plays keeping the
current winner, `none` for an empty trick (JS `null`). -/
def determineTrickWinner (trick : List Play) : Option PlayerId :=
  match trick with
  | [] => none
  | t0 :: rest =>
    some ((rest.foldl
      (fun w t => if compareCards t.card w.card (getEffectiveSuit t0.card) > 0 then t else w)
      t0).playerId)

/-- `calculatePoints` from `deck.js`: sum of the stored `points` fields. -/
def calculatePoints (cards : List Card) : Nat := (cards.map (fun c => c.points)).sum

/-- `hasAce` from `deck.js`. -/
def hasAce (hand : List Card) (suit : Suit) : Bool :=
  hand.any (fun c => decide (c.suit = suit) && decide (c.rank = Rank.A) && !(isTrump c))

/-- `getPlayableCards` from `deck.js` (the full six-argument version). -/
def getPlayableCards (hand : List Card) (currentTrick : List Play)
    (calledSuit : Option Suit) (calledSuitHasBeenLed : Bool)
    (isPicker : Bool) (hasCalledAce : Bool) : List Card :=
  match currentTrick with
  | [] =>
    match calledSuit with
    | some cs =>
      let cardsInCalledSuit := hand.filter (fun c => decide (getEffectiveSuit c = ESuit.fail cs))
      let calledAceCard := hand.find? (fun c => decide (c.suit = cs) && decide (c.rank = Rank.A))
      if calledAceCard.isSome && decide (0 < cardsInCalledSuit.length)
          && decide (cardsInCalledSuit.length < 4) then
        hand.filter (fun c =>
          if decide (getEffectiveSuit c = ESuit.fail cs) then decide (c.rank = Rank.A) else true)
      else if isPicker && !calledSuitHasBeenLed && decide (cardsInCalledSuit.length = 1) then
        hand.filter (fun c => !(decide (getEffectiveSuit c = ESuit.fail cs)))
      else hand
    | none => hand
  | t0 :: _ =>
    let leadSuit := getEffectiveSuit t0.card
    let cardsInSuit := hand.filter (fun c => decide (getEffectiveSuit c = leadSuit))
    if decide (0 < cardsInSuit.length) then
      if (match calledSuit with
          | some cs => decide (leadSuit = ESuit.fail cs) && hasCalledAce
          | none => false) then
        match cardsInSuit.find? (fun c => decide (c.rank = Rank.A)) with
        | some a => [a]
        | none => cardsInSuit
      else cardsInSuit
    else
      match calledSuit with
      | some cs =>
        if isPicker && !calledSuitHasBeenLed
            && decide ((hand.filter (fun c => decide (getEffectiveSuit c = ESuit.fail cs))).length = 1) then
          hand.filter (fun c => !(decide (getEffectiveSuit c = ESuit.fail cs)))
        else hand
      | none => hand

/-- Game phases (`PHASES` in `SheepsheadGame.js`). -/
inductive Phase where
  | waiting
  | dealing
  | picking
  | burying
  | calling
  | playing
  | scoring
  | schwanzer
deriving DecidableEq, Repr

/-- A completed trick record as `_completeTrick` stores it. -/
structure CompletedTrick where
  cards : List Play
  winner : Option PlayerId
  points : Nat
deriving DecidableEq, Repr

/-- The reason string attached to a `goAlone` calling result. -/
inductive CallReason where
  | allAcesAndTens
  | noValidOptions
deriving DecidableEq, Repr

/-- The `type` field of a calling option. -/
inductive CallType where
  | normal
  | under
deriving DecidableEq, Repr

/-- One option returned by `getCallableOptions`. -/
structure CallOption where
  suit : Suit
  rank : Rank
  ctype : CallType
deriving DecidableEq, Repr

/-- The record returned by `getCallableOptions`.  The JS `goAlone` returns
omit `mustSelectUnderCard` (read back as falsy), modelled as `false`. -/
structure CallableOptions where
  goAlone : Bool
  options : List CallOption
  mustSelectUnderCard : Bool
  reason : Option CallReason
deriving DecidableEq, Repr

/-- Result record of `_scoreNormalHand`.  `scores` is a total function that
agrees with the JS per-player score object on every actual player id. -/
structure NormalResults where
  picker : Option PlayerId
  partner : Option PlayerId
  pickingTeam : List PlayerId
  defendingTeam : List PlayerId
  pickingPoints : Int
  defendingPoints : Int
  buriedPoints : Nat
  pickersWin : Bool
  schneider : Bool
  schwarz : Bool
  multiplier : Int
  scores : PlayerId → Int

/-- Result record of `_scoreSchwanzer`. -/
structure SchwanzerResults where
  losers : List PlayerId
  winners : List PlayerId
  maxSchwanzerPoints : Nat
  scores : PlayerId → Int
  playerSchwanzerPoints : PlayerId → Nat

inductive HandResults where
  | normal (r : NormalResults)
  | schwanzer (r : SchwanzerResults)

/-- The mutable state of a `SheepsheadGame` hand (the fields the embedded
operations read or write). -/
structure GameState where
  phase : Phase
  players : List PlayerId
  currentPlayerIndex : Nat
  dealerIndex : Nat
  hands : PlayerId → List Card
  buried : List Card
  picker : Option PlayerId
  partner : Option PlayerId
  calledSuit : Option Suit
  calledRank : Rank
  isUnderCall : Bool
  underCardId : Option CardId
  underCardPlayed : Bool
  calledSuitFirstTrick : Bool
  currentTrick : List Play
  tricks : List CompletedTrick
  tricksWon : PlayerId → List CompletedTrick
  lastTrick : Option (List Play)
  isSchwanzer : Bool
  handResults : Option HandResults

/-- Discriminated operation results; `err` carries the rejection reason. -/
inductive ErrCode where
  | notInPlayingPhase
  | notYourTurn
  | mustPlayUnder
  | cardNotInHand
  | cannotPlayCard
  | notInBuryingPhase
  | notPicker
  | mustBuryTwo
  | cannotBuryUnder
  | cannotBuryQJ
  | mustKeepHoldCard
  | notInCallingPhase
  | mustGoAlone
  | cannotCallSuit
  | needsUnderCard
  | underCardNotInHand
deriving DecidableEq, Repr

inductive OpResult where
  | ok
  | err (e : ErrCode)
deriving DecidableEq, Repr

/-- `_calculateFailPoints`: Queens 3, Jacks 2, other diamonds 1. -/
def calculateFailPoints : List Card → Nat
  | [] => 0
  | c :: rest =>
    (if c.rank = Rank.Q then 3
     else if c.rank = Rank.J then 2
     else if c.suit = Suit.diamonds then 1
     else 0) + calculateFailPoints rest

/-- Maximum of a list of naturals; `Math.max(...)` over a nonempty list
(the JS result on an empty list is `-Infinity`, unreachable here). -/
def listMaxD : List Nat → Nat
  | [] => 0
  | x :: xs => xs.foldl max x

/-- `getCallableOptions` from `SheepsheadGame.js`, as a function of the
picker's hand (the method reads `this.hands[playerId]`). -/
def getCallableOptions (hand : List Card) : CallableOptions :=
  let acesHeld := FAIL_SUITS.filter (fun suit => hasAce hand suit)
  let tensHeld := FAIL_SUITS.filter (fun suit =>
    hand.any (fun c => decide (c.suit = suit) && decide (c.rank = Rank.r10) && !(isTrump c)))
  let failSuitsWithoutAce := FAIL_SUITS.filter (fun suit =>
    (hand.any (fun c => decide (c.suit = suit) && !(isTrump c))) && !(hasAce hand suit))
  if decide (acesHeld.length = 3) then
    let options := (FAIL_SUITS.filter (fun suit => !(tensHeld.contains suit))).map
      (fun suit => { suit := suit, rank := Rank.r10, ctype := CallType.under : CallOption })
    if decide (options.length = 0) then
      { goAlone := true, options := [], mustSelectUnderCard := false,
        reason := some CallReason.allAcesAndTens }
    else
      { goAlone := false, options := options, mustSelectUnderCard := true, reason := none }
  else if decide (0 < failSuitsWithoutAce.length) then
    { goAlone := false,
      options := failSuitsWithoutAce.map
        (fun suit => { suit := suit, rank := Rank.A, ctype := CallType.normal : CallOption }),
      mustSelectUnderCard := false, reason := none }
  else
    let options := (FAIL_SUITS.filter (fun suit => !(acesHeld.contains suit))).map
      (fun suit => { suit := suit, rank := Rank.A, ctype := CallType.under : CallOption })
    if decide (options.length = 0) then
      { goAlone := true, options := [], mustSelectUnderCard := false,
        reason := some CallReason.noValidOptions }
    else
      { goAlone := false, options := options, mustSelectUnderCard := true, reason := none }

/-- `callAce` from `SheepsheadGame.js`. -/
def callAce (s : GameState) (pid : PlayerId) (suit : Suit) (goAlone : Bool)
    (underCardId : Option CardId) : GameState × OpResult :=
  if !(decide (s.phase = Phase.calling)) then (s, OpResult.err ErrCode.notInCallingPhase)
  else if !(decide (s.picker = some pid)) then (s, OpResult.err ErrCode.notPicker)
  else if goAlone then
    ({ s with calledSuit := none, calledRank := Rank.A, partner := none,
              isUnderCall := false, underCardId := none, phase := Phase.burying },
     OpResult.ok)
  else
    let co := getCallableOptions (s.hands pid)
    if co.goAlone then (s, OpResult.err ErrCode.mustGoAlone)
    else
      match co.options.find? (fun o => decide (o.suit = suit)) with
      | none => (s, OpResult.err ErrCode.cannotCallSuit)
      | some validOption =>
        if decide (validOption.ctype = CallType.under) || co.mustSelectUnderCard then
          match underCardId with
          | none => (s, OpResult.err ErrCode.needsUnderCard)
          | some ucid =>
            if ((s.hands pid).find? (fun c => decide (c.cid = ucid))).isNone then
              (s, OpResult.err ErrCode.underCardNotInHand)
            else
              ({ s with underCardId := some ucid, isUnderCall := true,
                        calledSuit := some suit, calledRank := validOption.rank,
                        partner := none, phase := Phase.burying },
               OpResult.ok)
        else
          ({ s with isUnderCall := false, underCardId := none,
                    calledSuit := some suit, calledRank := validOption.rank,
                    partner := none, phase := Phase.burying },
           OpResult.ok)

/-- `bury` from `SheepsheadGame.js` (the current revision, which still
contains the Queens/Jacks restriction). -/
def bury (s : GameState) (pid : PlayerId) (cardIds : List CardId) : GameState × OpResult :=
  if !(decide (s.phase = Phase.burying)) then (s, OpResult.err ErrCode.notInBuryingPhase)
  else if !(decide (s.picker = some pid)) then (s, OpResult.err ErrCode.notPicker)
  else if !(decide (cardIds.length = 2)) then (s, OpResult.err ErrCode.mustBuryTwo)
  else if !(cardIds.all (fun cid => (s.hands pid).any (fun c => decide (c.cid = cid)))) then
    (s, OpResult.err ErrCode.cardNotInHand)
  else
    let toBury := cardIds.filterMap (fun cid => (s.hands pid).find? (fun c => decide (c.cid = cid)))
    if (match s.underCardId with | some u => cardIds.contains u | none => false : Bool) then
      (s, OpResult.err ErrCode.cannotBuryUnder)
    else if decide (0 < (toBury.filter
              (fun c => decide (c.rank = Rank.Q) || decide (c.rank = Rank.J))).length)
        && decide (2 ≤ ((s.hands pid).filter (fun c =>
              !(cardIds.contains c.cid) && !(decide (c.rank = Rank.Q))
                && !(decide (c.rank = Rank.J)))).length) then
      (s, OpResult.err ErrCode.cannotBuryQJ)
    else
      let remainingHand := (s.hands pid).filter (fun c => !(cardIds.contains c.cid))
      if (match s.calledSuit with
          | some cs =>
            decide ((remainingHand.filter
              (fun c => decide (c.suit = cs) && !(isTrump c))).length = 0)
          | none => false : Bool) then
        (s, OpResult.err ErrCode.mustKeepHoldCard)
      else
        ({ s with hands := fun p => if p = pid then remainingHand else s.hands p,
                  buried := toBury, phase := Phase.playing,
                  currentPlayerIndex := (s.dealerIndex + 1) % 5 },
         OpResult.ok)

/-- Effective suit of the current trick's lead card (`null` when leading). -/
def leadESuit (s : GameState) : Option ESuit :=
  match s.currentTrick with
  | [] => none
  | t0 :: _ => some (getEffectiveSuit t0.card)

/-- The `mustPlayUnderCard` condition of `playCard`. -/
def mustPlayUnderB (s : GameState) (pid : PlayerId) : Bool :=
  s.isUnderCall && s.underCardId.isSome && !s.underCardPlayed
    && decide (s.picker = some pid)
    && !(s.currentTrick.isEmpty)
    && (match leadESuit s, s.calledSuit with
        | some (ESuit.fail ls), some cs => decide (ls = cs)
        | _, _ => false)

/-- The `isPlayingUnderCard` condition of `playCard`. -/
def isPlayingUnderB (s : GameState) (pid : PlayerId) (cid : CardId) : Bool :=
  s.isUnderCall && decide (s.underCardId = some cid) && !s.underCardPlayed
    && decide (s.picker = some pid)

/-- The `hasCalledAce` computation inside `playCard`. -/
def hasCalledAceB (s : GameState) (pid : PlayerId) : Bool :=
  match s.calledSuit with
  | some cs =>
    !(decide (s.picker = some pid))
      && (s.hands pid).any (fun c => decide (c.suit = cs) && decide (c.rank = s.calledRank))
  | none => false

/-- The legal-move consultation inside `playCard`. -/
def playableOK (s : GameState) (pid : PlayerId) (cid : CardId) : Bool :=
  (getPlayableCards (s.hands pid) s.currentTrick s.calledSuit
      (!s.calledSuitFirstTrick) (decide (s.picker = some pid)) (hasCalledAceB s pid)).any
    (fun c => decide (c.cid = cid))

/-- The state after the `isPlayingUnderCard` flag mutation in `playCard`
(performed before the legal-move check and kept even on rejection). -/
def mutUnder (s : GameState) (pid : PlayerId) (cid : CardId) : GameState :=
  if isPlayingUnderB s pid cid then { s with underCardPlayed := true } else s

/-- The trick record built by `_completeTrick`: the winner is resolved over
the plays not flagged as the under card; the points count every card. -/
def completeTrickRecord (trick : List Play) : CompletedTrick :=
  { cards := trick,
    winner := determineTrickWinner (trick.filter (fun t => !t.isUnderCard)),
    points := calculatePoints (trick.map (fun t => t.card)) }

/-- Per-player trick points: `tricksWon[pid].reduce((s, t) => s + t.points, 0)`. -/
def trickPointsOf (s : GameState) (pid : PlayerId) : Nat :=
  ((s.tricksWon pid).map (fun t => t.points)).sum

/-- The per-player point totals of `_scoreNormalHand` (buried points are
added to the picker's total). -/
def playerPointsOf (s : GameState) (pid : PlayerId) : Nat :=
  trickPointsOf s pid + (if s.picker = some pid then calculatePoints s.buried else 0)

/-- `pickingTeam`: the picker plus the partner when revealed and distinct.
(The source would build `[null]` when the picker is absent; scoring a hand
without a picker is unreachable, modelled as the empty team.) -/
def pickingTeamOf (s : GameState) : List PlayerId :=
  match s.picker with
  | some pk =>
    pk :: (match s.partner with
           | some q => if q ≠ pk then [q] else []
           | none => [])
  | none => []

/-- Picking-team point total of `_scoreNormalHand`. -/
def pickingPointsOf (s : GameState) : Nat :=
  ((pickingTeamOf s).map (playerPointsOf s)).sum

/-- `defendingTeam`: every seated player outside the picking team. -/
def defendingTeamOf (s : GameState) : List PlayerId :=
  s.players.filter (fun p => !((pickingTeamOf s).contains p))

/-- `pickersWin`: picking points at least `WIN_THRESHOLD` (61). -/
def pickersWinOf (s : GameState) : Bool := decide (61 ≤ (pickingPointsOf s : Int))

/-- `losingPoints` of `_scoreNormalHand`. -/
def losingPointsOf (s : GameState) : Int :=
  if pickersWinOf s then 120 - (pickingPointsOf s : Int) else (pickingPointsOf s : Int)

/-- `losingTeamTricks.length` of `_scoreNormalHand`. -/
def losingTricksCountOf (s : GameState) : Nat :=
  ((if pickersWinOf s then defendingTeamOf s else pickingTeamOf s).map
    (fun pid => (s.tricksWon pid).length)).sum

/-- The schneider flag: losing points below `WIN_THRESHOLD - 30` (31). -/
def schneiderOf (s : GameState) : Bool := decide (losingPointsOf s < 31)

/-- The schwarz flag: the losing side won zero tricks. -/
def schwarzOf (s : GameState) : Bool := decide (losingTricksCountOf s = 0)

/-- The multiplier: 3 for schwarz, else 2 for schneider, else 1. -/
def multiplierOf (s : GameState) : Int :=
  if schwarzOf s then 3 else if schneiderOf s then 2 else 1

/-- `isAlone`: no partner, or the picker is their own partner. -/
def isAloneOf (s : GameState) : Bool :=
  decide (s.partner = none) || decide (s.partner = s.picker)

/-- The picker's stake: 4 when alone, else 2. -/
def pickerMultOf (s : GameState) : Int := if isAloneOf s then 4 else 2

/-- The per-seat score function of `_scoreNormalHand`. -/
def normalScoresOf (s : GameState) : PlayerId → Int := fun pid =>
  if s.picker = some pid then
    (if pickersWinOf s then multiplierOf s * pickerMultOf s
     else -(multiplierOf s * pickerMultOf s))
  else if s.partner = some pid then
    (if pickersWinOf s then multiplierOf s else -(multiplierOf s))
  else
    (if pickersWinOf s then -(multiplierOf s) else multiplierOf s)

/-- `_scoreNormalHand` from `SheepsheadGame.js`. -/
def scoreNormalHand (s : GameState) : NormalResults :=
  { picker := s.picker,
    partner := s.partner,
    pickingTeam := pickingTeamOf s,
    defendingTeam := defendingTeamOf s,
    pickingPoints := (pickingPointsOf s : Int),
    defendingPoints := 120 - (pickingPointsOf s : Int),
    buriedPoints := calculatePoints s.buried,
    pickersWin := pickersWinOf s,
    schneider := schneiderOf s,
    schwarz := schwarzOf s,
    multiplier := multiplierOf s,
    scores := normalScoresOf s }

/-- The per-player Schwanzer points of `_scoreSchwanzer`. -/
def schwanzerPtsOf (s : GameState) : PlayerId → Nat :=
  fun pid => calculateFailPoints (s.hands pid)

/-- `maxSchwanzerPoints`: the maximum over the seated players. -/
def schwanzerMaxOf (s : GameState) : Nat := listMaxD (s.players.map (schwanzerPtsOf s))

/-- The losers: every player tied for the maximum. -/
def schwanzerLosersOf (s : GameState) : List PlayerId :=
  s.players.filter (fun p => decide (schwanzerPtsOf s p = schwanzerMaxOf s))

/-- The loser score of the fixed table, keyed by loser count (the source's
`switch`, default 0). -/
def schwanzerLoserScoreOf (s : GameState) : Int :=
  match (schwanzerLosersOf s).length with
  | 1 => -4
  | 2 => -3
  | 3 => -2
  | 4 => -1
  | _ => 0

/-- The winner score of the fixed table, keyed by loser count. -/
def schwanzerWinnerScoreOf (s : GameState) : Int :=
  match (schwanzerLosersOf s).length with
  | 1 => 1
  | 2 => 2
  | 3 => 3
  | 4 => 4
  | _ => 0

/-- The per-seat score function of `_scoreSchwanzer`. -/
def schwanzerScoresOf (s : GameState) : PlayerId → Int := fun pid =>
  if schwanzerPtsOf s pid = schwanzerMaxOf s then schwanzerLoserScoreOf s
  else schwanzerWinnerScoreOf s

/-- `_scoreSchwanzer` from `SheepsheadGame.js`. -/
def scoreSchwanzer (s : GameState) : SchwanzerResults :=
  { losers := schwanzerLosersOf s,
    winners := s.players.filter (fun p => decide (schwanzerPtsOf s p < schwanzerMaxOf s)),
    maxSchwanzerPoints := schwanzerMaxOf s,
    scores := schwanzerScoresOf s,
    playerSchwanzerPoints := schwanzerPtsOf s }

/-- `_completeHand`: run the appropriate scoring algorithm, store the
result, advance the dealer.  Always succeeds. -/
def completeHand (s : GameState) : GameState × OpResult :=
  let results :=
    if s.isSchwanzer then HandResults.schwanzer (scoreSchwanzer s)
    else HandResults.normal (scoreNormalHand s)
  ({ s with phase := Phase.scoring, handResults := some results,
            dealerIndex := (s.dealerIndex + 1) % 5 },
   OpResult.ok)

/-- The winner credited by `_completeTrick` (seat 0 when the eligible list
is empty, where the source would fault on a `null` winner). -/
def completeTrickWinnerSeat (s : GameState) : PlayerId :=
  ((completeTrickRecord s.currentTrick).winner).getD 0

/-- The state mutation of `_completeTrick`: store the trick, credit the
winner, clear the trick, winner leads next (the source's `findIndex` would
yield `-1` for an unseated winner; modelled as seat 0). -/
def completeTrickState (s : GameState) : GameState :=
  { s with tricks := s.tricks ++ [completeTrickRecord s.currentTrick],
           tricksWon := fun p =>
             if p = completeTrickWinnerSeat s
             then s.tricksWon p ++ [completeTrickRecord s.currentTrick]
             else s.tricksWon p,
           lastTrick := some s.currentTrick,
           currentTrick := [],
           currentPlayerIndex :=
             (s.players.findIdx? (fun p => decide (p = completeTrickWinnerSeat s))).getD 0 }

/-- `_completeTrick`: after the mutation, finish the hand when the first
seat's hand is empty.  Always succeeds. -/
def completeTrick (s : GameState) : GameState × OpResult :=
  match (completeTrickState s).players with
  | [] => (completeTrickState s, OpResult.ok)
  | p0 :: _ =>
    if decide (((completeTrickState s).hands p0).length = 0) then
      completeHand (completeTrickState s)
    else (completeTrickState s, OpResult.ok)

/-- The first partner-reveal test of `playCard`: a non-under play of the
called suit and rank reveals the partner. -/
def partner1Of (s : GameState) (pid : PlayerId) (card : Card) (isUnder : Bool) :
    Option PlayerId :=
  if (match s.calledSuit with
      | some cs =>
        decide (s.partner = none) && !isUnder
          && decide (card.suit = cs) && decide (card.rank = s.calledRank)
      | none => false : Bool) then some pid else s.partner

/-- The second partner-reveal test of `playCard`: playing the under card
makes its player the partner when none is revealed yet. -/
def partner2Of (s : GameState) (pid : PlayerId) (card : Card) (isUnder : Bool) :
    Option PlayerId :=
  if isUnder && decide (partner1Of s pid card isUnder = none) then some pid
  else partner1Of s pid card isUnder

/-- The `calledSuitFirstTrick` update of `playCard`: leading the called
suit clears the flag. -/
def firstTrickAfter (s : GameState) (card : Card) : Bool :=
  if (match s.calledSuit with
      | some cs => s.currentTrick.isEmpty && decide (getEffectiveSuit card = ESuit.fail cs)
      | none => false : Bool) then false else s.calledSuitFirstTrick

/-- The state mutation of the commit part of `playCard`: remove the card
from the hand, extend the trick, reveal the partner, track the first lead
of the called suit. -/
def playCardCommitState (s : GameState) (pid : PlayerId) (card : Card) (cid : CardId)
    (isUnder : Bool) : GameState :=
  { s with hands := fun p =>
             if p = pid then (s.hands pid).eraseP (fun c => decide (c.cid = cid))
             else s.hands p,
           currentTrick := s.currentTrick ++ [{ playerId := pid, card := card, isUnderCard := isUnder }],
           partner := partner2Of s pid card isUnder,
           calledSuitFirstTrick := firstTrickAfter s card }

/-- The commit part of `playCard`, entered once all checks have passed;
completes the trick on the fifth play, else passes the turn on. -/
def playCardCommit (s : GameState) (pid : PlayerId) (card : Card) (cid : CardId)
    (isUnder : Bool) : GameState × OpResult :=
  if decide ((playCardCommitState s pid card cid isUnder).currentTrick.length = 5) then
    completeTrick (playCardCommitState s pid card cid isUnder)
  else
    ({ playCardCommitState s pid card cid isUnder with
        currentPlayerIndex :=
          ((playCardCommitState s pid card cid isUnder).currentPlayerIndex + 1) % 5 },
     OpResult.ok)

/-- `playCard` from `SheepsheadGame.js`.  Note the source order: the
`underCardPlayed` flag is set (via `mutUnder`) after the card is found in
the hand but before the legal-move check, and a rejection by that check
keeps the mutated flag. -/
def playCard (s : GameState) (pid : PlayerId) (cid : CardId) : GameState × OpResult :=
  if !(decide (s.phase = Phase.playing) || decide (s.phase = Phase.schwanzer)) then
    (s, OpResult.err ErrCode.notInPlayingPhase)
  else
    match s.players.get? s.currentPlayerIndex with
    | none => (s, OpResult.err ErrCode.notYourTurn)
    | some cp =>
      if !(decide (cp = pid)) then (s, OpResult.err ErrCode.notYourTurn)
      else if mustPlayUnderB s pid && !(decide (s.underCardId = some cid)) then
        (s, OpResult.err ErrCode.mustPlayUnder)
      else
        match (s.hands pid).find? (fun c => decide (c.cid = cid)) with
        | none => (s, OpResult.err ErrCode.cardNotInHand)
        | some card =>
          if !(mustPlayUnderB s pid) then
            (if playableOK s pid cid then
               playCardCommit (mutUnder s pid cid) pid card cid (isPlayingUnderB s pid cid)
             else (mutUnder s pid cid, OpResult.err ErrCode.cannotPlayCard))
          else
            playCardCommit (mutUnder s pid cid) pid card cid (isPlayingUnderB s pid cid)

/-- Spec-level picking-team total: picker's trick points, plus the buried
pile, plus the partner's trick points when a distinct partner is revealed. -/
def specPickingPoints (s : GameState) (pk : PlayerId) : Nat :=
  trickPointsOf s pk + calculatePoints s.buried +
    (match s.partner with
     | some q => if q ≠ pk then trickPointsOf s q else 0
     | none => 0)

/-- Spec-level losing-side total of a normal hand. -/
def specLosingPoints (s : GameState) (pk : PlayerId) : Int :=
  if 61 ≤ specPickingPoints s pk then (120 : Int) - (specPickingPoints s pk : Int)
  else (specPickingPoints s pk : Int)

/-- Spec-level Schwanzer points of a hand: each Queen 3, each Jack 2, each
diamond that is neither a Queen nor a Jack 1 (so a court diamond is counted
only once). -/
def specSchwanzerPoints (hand : List Card) : Nat :=
  3 * hand.countP (fun c => decide (c.rank = Rank.Q))
    + 2 * hand.countP (fun c => decide (c.rank = Rank.J))
    + hand.countP (fun c =>
        decide (c.suit = Suit.diamonds) && !(decide (c.rank = Rank.Q))
          && !(decide (c.rank = Rank.J)))

/-- The fixed Schwanzer score table for losers, keyed by loser count. -/
def loserScoreSpec : Nat → Int
  | 1 => -4
  | 2 => -3
  | 3 => -2
  | 4 => -1
  | _ => 0

/-- The fixed Schwanzer score table for winners, keyed by loser count. -/
def winnerScoreSpec : Nat → Int
  | 1 => 1
  | 2 => 2
  | 3 => 3
  | 4 => 4
  | _ => 0

/-- A card whose stored points agree with its rank's point value (every
card built by `createDeck` is of this form). -/
def wellFormedCard (c : Card) : Prop := c.points = pointValue c.rank

instance (c : Card) : Decidable (wellFormedCard c) := by
  unfold wellFormedCard
  infer_instance

/-- A neutral five-player state used to build concrete test states. -/
def baseState : GameState :=
  { phase := Phase.waiting, players := [0, 1, 2, 3, 4], currentPlayerIndex := 0,
    dealerIndex := 0, hands := fun _ => [], buried := [], picker := none,
    partner := none, calledSuit := none, calledRank := Rank.A, isUnderCall := false,
    underCardId := none, underCardPlayed := false, calledSuitFirstTrick := true,
    currentTrick := [], tricks := [], tricksWon := fun _ => [], lastTrick := none,
    isSchwanzer := false, handResults := none }

/-- A completed-trick stub carrying only points (as the repository's own
scoring tests build them). -/
def trickOfPoints (n : Nat) : CompletedTrick := { cards := [], winner := none, points := n }

/-- Completed normal hand: picker seat 0 with partner seat 1 take exactly
30 points (one trick); the defenders take 90. -/
def stThirty : GameState :=
  { baseState with
    phase := Phase.scoring
    picker := some 0
    partner := some 1
    tricksWon := fun p =>
      if p = 0 then [trickOfPoints 30]
      else if p = 2 then [trickOfPoints 40]
      else if p = 3 then [trickOfPoints 30]
      else if p = 4 then [trickOfPoints 20]
      else [] }

/-- Completed normal hand: the picking team takes exactly 61 points. -/
def stSixtyOne : GameState :=
  { baseState with
    phase := Phase.scoring
    picker := some 0
    partner := some 1
    tricksWon := fun p =>
      if p = 0 then [trickOfPoints 51]
      else if p = 1 then [trickOfPoints 10]
      else if p = 2 then [trickOfPoints 20]
      else if p = 3 then [trickOfPoints 20]
      else [trickOfPoints 19] }

/-- Mid-play under-call state: the picker (seat 0, to act) holds the trump
Queen of clubs and the designated under card 7 of hearts; trump was led. -/
def stUnderReject : GameState :=
  { baseState with
    phase := Phase.playing
    currentPlayerIndex := 0
    picker := some 0
    calledSuit := some Suit.clubs
    calledRank := Rank.A
    isUnderCall := true
    underCardId := some (Rank.r7, Suit.hearts)
    underCardPlayed := false
    currentTrick := [{ playerId := 4, card := mkCard Rank.Q Suit.spades, isUnderCard := false }]
    hands := fun p =>
      if p = 0 then [mkCard Rank.Q Suit.clubs, mkCard Rank.r7 Suit.hearts] else [] }

/-- Burying-phase state with the hand of the repository's own test B1:
six trump court cards plus the ace and king of hearts, going alone. -/
def stBuryQ : GameState :=
  { baseState with
    phase := Phase.burying
    picker := some 0
    hands := fun p =>
      if p = 0 then
        [mkCard Rank.Q Suit.clubs, mkCard Rank.Q Suit.spades, mkCard Rank.J Suit.clubs,
         mkCard Rank.J Suit.spades, mkCard Rank.J Suit.hearts, mkCard Rank.J Suit.diamonds,
         mkCard Rank.A Suit.hearts, mkCard Rank.K Suit.hearts]
      else [] }

/-- The picker hand of the repository's Call-10 test: all three fail aces,
no fail tens. -/
def handAllAces : List Card :=
  [mkCard Rank.A Suit.hearts, mkCard Rank.A Suit.spades, mkCard Rank.A Suit.clubs,
   mkCard Rank.Q Suit.clubs, mkCard Rank.J Suit.hearts, mkCard Rank.r7 Suit.diamonds,
   mkCard Rank.r8 Suit.diamonds, mkCard Rank.r9 Suit.diamonds]

/-- A picker hand with all three fail aces and all three fail tens. -/
def handAllAcesTens : List Card :=
  [mkCard Rank.A Suit.hearts, mkCard Rank.A Suit.spades, mkCard Rank.A Suit.clubs,
   mkCard Rank.r10 Suit.hearts, mkCard Rank.r10 Suit.spades, mkCard Rank.r10 Suit.clubs,
   mkCard Rank.Q Suit.clubs, mkCard Rank.J Suit.hearts]

/-- Calling-phase state whose picker (seat 0) holds `handAllAces`. -/
def stCallTen : GameState :=
  { baseState with
    phase := Phase.calling
    picker := some 0
    hands := fun p => if p = 0 then handAllAces else [] }

/-- Mid-play call-10 state: hearts (called suit, called rank 10) was led
and seat 1 holds the called 10 of hearts together with the king of hearts. -/
def stCallTenPlay : GameState :=
  { baseState with
    phase := Phase.playing
    currentPlayerIndex := 1
    picker := some 0
    calledSuit := some Suit.hearts
    calledRank := Rank.r10
    isUnderCall := true
    underCardId := some (Rank.r7, Suit.diamonds)
    underCardPlayed := false
    currentTrick := [{ playerId := 2, card := mkCard Rank.r9 Suit.hearts, isUnderCard := false }]
    hands := fun p =>
      if p = 1 then [mkCard Rank.r10 Suit.hearts, mkCard Rank.K Suit.hearts]
      else if p = 0 then [mkCard Rank.r7 Suit.diamonds] else [] }

/-- Mid-play normal-call state: hearts (called suit, called rank ace) was
led and seat 1 holds the called ace of hearts together with the king. -/
def stAcePlay : GameState :=
  { baseState with
    phase := Phase.playing
    currentPlayerIndex := 1
    picker := some 0
    calledSuit := some Suit.hearts
    calledRank := Rank.A
    isUnderCall := false
    currentTrick := [{ playerId := 2, card := mkCard Rank.r9 Suit.hearts, isUnderCard := false }]
    hands := fun p =>
      if p = 1 then [mkCard Rank.A Suit.hearts, mkCard Rank.K Suit.hearts] else [] }

/-- The spec's example trick: king of clubs led, the under-card 7 of
diamonds (the only trump, numerically highest) played second. -/
def exTrick : List Play :=
  [{ playerId := 1, card := mkCard Rank.K Suit.clubs, isUnderCard := false },
   { playerId := 0, card := mkCard Rank.r7 Suit.diamonds, isUnderCard := true },
   { playerId := 2, card := mkCard Rank.A Suit.clubs, isUnderCard := false },
   { playerId := 3, card := mkCard Rank.r10 Suit.clubs, isUnderCard := false },
   { playerId := 4, card := mkCard Rank.r9 Suit.clubs, isUnderCard := false }]

/-- The under-card play of `exTrick`. -/
def exUnderPlay : Play :=
  { playerId := 0, card := mkCard Rank.r7 Suit.diamonds, isUnderCard := true }

theorem pickingPointsOf_eq_spec (s : GameState) (pk : PlayerId) (h : s.picker = some pk) :
    pickingPointsOf s = specPickingPoints s pk := by
  unfold pickingPointsOf pickingTeamOf specPickingPoints playerPointsOf
  rw [h]
  cases hp : s.partner with
  | none => simp [h]
  | some q =>
    by_cases hq : q = pk
    · subst hq
      simp [h]
    · simp [h, hq, Ne.symm hq]

/-- Claim C7: in normal-hand scoring the picking team (picker plus a
distinct revealed partner, with the buried pile credited to the picker)
wins exactly when its point total is at least 61; at exactly 60 the
defenders win. -/
theorem pickersWin_iff_sixtyone (s : GameState) (pk : PlayerId) (h : s.picker = some pk) :
    ((scoreNormalHand s).pickersWin = true ↔ 61 ≤ specPickingPoints s pk) := by
  show pickersWinOf s = true ↔ _
  unfold pickersWinOf
  simp only [decide_eq_true_eq]
  rw [pickingPointsOf_eq_spec s pk h]
  exact_mod_cast Iff.rfl

/-- Witness for C7 at a concrete completed hand with picking points 61. -/
theorem pickersWin_iff_sixtyone_witness :
    stSixtyOne.picker = some 0
      ∧ ((scoreNormalHand stSixtyOne).pickersWin = true ↔ 61 ≤ specPickingPoints stSixtyOne 0) :=
  ⟨rfl, pickersWin_iff_sixtyone stSixtyOne 0 rfl⟩

/-- Counterexample to claim C1: a completed normal hand in which the
picker's side loses with exactly 30 points (strictly more than 29), yet
the code awards the schneider multiplier of 2. -/
theorem schneider_at_thirty_counterexample :
    stThirty.picker = some 0
      ∧ specPickingPoints stThirty 0 = 30
      ∧ (scoreNormalHand stThirty).pickersWin = false
      ∧ (scoreNormalHand stThirty).schneider = true
      ∧ (scoreNormalHand stThirty).schwarz = false
      ∧ (scoreNormalHand stThirty).multiplier = 2 := by
  refine ⟨rfl, by decide, by decide, by decide, by decide, by decide⟩

/-- Claim C1 as amended: the schneider flag is set exactly when the losing
side's points are at most 30, for either losing side; in particular a hand
with picking points 90 (defenders at 30) or 91 (defenders at 29) is scored
as schneider. -/
theorem schneider_iff_losing_le_thirty (s : GameState) (pk : PlayerId) (h : s.picker = some pk) :
    ((scoreNormalHand s).schneider = true ↔ specLosingPoints s pk ≤ 30) := by
  show schneiderOf s = true ↔ _
  unfold schneiderOf losingPointsOf pickersWinOf specLosingPoints
  simp only [decide_eq_true_eq]
  rw [pickingPointsOf_eq_spec s pk h]
  by_cases hw : (61 : Int) ≤ (specPickingPoints s pk : Int)
  · have hw2 : 61 ≤ specPickingPoints s pk := by exact_mod_cast hw
    simp [hw, hw2]
    omega
  · have hw2 : ¬(61 ≤ specPickingPoints s pk) := fun hx => hw (by exact_mod_cast hx)
    simp [hw, hw2]
    omega

/-- Witness for the amended C1 at the concrete hand `stThirty`. -/
theorem schneider_iff_losing_le_thirty_witness :
    stThirty.picker = some 0
      ∧ ((scoreNormalHand stThirty).schneider = true ↔ specLosingPoints stThirty 0 ≤ 30) :=
  ⟨rfl, schneider_iff_losing_le_thirty stThirty 0 rfl⟩

theorem foldl_choice_mem {α : Type} (f : α → α → α) (hf : ∀ x y, f x y = x ∨ f x y = y) :
    ∀ (l : List α) (a : α), l.foldl f a ∈ a :: l := by
  intro l
  induction l with
  | nil => intro a; simp
  | cons b t ih =>
    intro a
    rw [List.foldl_cons]
    have hmem := ih (f a b)
    rcases List.mem_cons.mp hmem with h | h
    · rcases hf a b with h2 | h2
      · have h3 := h.trans h2
        rw [h3]
        exact List.mem_cons_self a (b :: t)
      · have h3 := h.trans h2
        rw [h3]
        exact List.mem_cons.mpr (Or.inr (List.mem_cons_self b t))
    · exact List.mem_cons.mpr (Or.inr (List.mem_cons.mpr (Or.inr h)))

theorem determineTrickWinner_mem (l : List Play) (w : PlayerId)
    (h : determineTrickWinner l = some w) : ∃ t ∈ l, t.playerId = w := by
  cases l with
  | nil => simp [determineTrickWinner] at h
  | cons t0 rest =>
    unfold determineTrickWinner at h
    have hw := Option.some_injective _ h
    have hmem := foldl_choice_mem
      (fun w t => if compareCards t.card w.card (getEffectiveSuit t0.card) > 0 then t else w)
      (by
        intro x y
        by_cases hc : compareCards y.card x.card (getEffectiveSuit t0.card) > 0
        · right; simp [hc]
        · left; simp [hc])
      rest t0
    exact ⟨_, hmem, hw⟩

theorem nodup_all_eq_len_le_one {α : Type} (l : List α) (u : α) (hnd : l.Nodup)
    (hall : ∀ x ∈ l, x = u) : l.length ≤ 1 := by
  match l, hnd with
  | [], _ => simp
  | [a], _ => simp
  | a :: b :: t, hnd =>
    have ha : a = u := hall a (by simp)
    have hb : b = u := hall b (by simp)
    have : a ≠ b := by
      intro hab
      exact (List.nodup_cons.mp hnd).1 (hab ▸ List.mem_cons_self b t)
    exact absurd (ha.trans hb.symm) this

theorem length_filter_not_split {α : Type} (l : List α) (p : α → Bool) :
    (l.filter p).length + (l.filter (fun x => !(p x))).length = l.length := by
  induction l with
  | nil => simp
  | cons a t ih =>
    by_cases h : p a <;> simp [List.filter_cons, h] <;> omega

/-- Claim C5: in a completed five-play trick containing the play flagged as
the under card, the winner is resolved among the four unflagged plays, and
the seat that played the under card never wins — even when the under card
is the highest card played. -/
theorem under_card_never_wins (trick : List Play) (u : Play)
    (h5 : trick.length = 5) (hu : u ∈ trick) (hflag : u.isUnderCard = true)
    (huniq : ∀ t ∈ trick, t.isUnderCard = true → t = u)
    (hids : (trick.map (fun t => t.playerId)).Nodup) :
    (completeTrickRecord trick).winner
        = determineTrickWinner (trick.filter (fun t => !t.isUnderCard))
      ∧ (trick.filter (fun t => !t.isUnderCard)).length = 4
      ∧ ∀ w, (completeTrickRecord trick).winner = some w → w ≠ u.playerId := by
  have hnd : trick.Nodup := List.Nodup.of_map _ hids
  have hflagged : (trick.filter (fun t => t.isUnderCard)).length = 1 := by
    have hle := nodup_all_eq_len_le_one (trick.filter (fun t => t.isUnderCard)) u
      (hnd.filter _)
      (by
        intro x hx
        have hx2 := List.mem_filter.mp hx
        exact huniq x hx2.1 hx2.2)
    have hmem : u ∈ trick.filter (fun t => t.isUnderCard) :=
      List.mem_filter.mpr ⟨hu, hflag⟩
    have hpos : 0 < (trick.filter (fun t => t.isUnderCard)).length :=
      List.length_pos.mpr (List.ne_nil_of_mem hmem)
    omega
  refine ⟨rfl, ?_, ?_⟩
  · have := length_filter_not_split trick (fun t => t.isUnderCard)
    omega
  · intro w hw heq
    have hw2 : determineTrickWinner (trick.filter (fun t => !t.isUnderCard)) = some w := hw
    obtain ⟨t, htmem, htid⟩ := determineTrickWinner_mem _ _ hw2
    have ht2 := List.mem_filter.mp htmem
    have htflag : t.isUnderCard = false := by
      have h2 := ht2.2
      simp at h2
      exact h2
    have htne : t ≠ u := by
      intro h
      rw [h, hflag] at htflag
      simp at htflag
    have hinj := List.inj_on_of_nodup_map hids ht2.1 hu (htid.trans heq)
    exact htne hinj

/-- Witness for C5: the spec's example trick, where the under-card 7 of
diamonds is the only trump (numerically highest) yet seat 2 wins with the
ace of clubs. -/
theorem under_card_never_wins_witness :
    (completeTrickRecord exTrick).winner = some 2
      ∧ (2 : PlayerId) ≠ exUnderPlay.playerId
      ∧ (exTrick.filter (fun t => !t.isUnderCard)).length = 4 := by
  have h := under_card_never_wins exTrick exUnderPlay (by decide) (by decide) (by decide)
    (by decide) (by decide)
  exact ⟨by decide, h.2.2 2 (by decide), h.2.1⟩

theorem calculatePoints_map_card (trick : List Play)
    (hwf : ∀ t ∈ trick, wellFormedCard t.card) :
    calculatePoints (trick.map (fun t => t.card))
      = (trick.map (fun t => pointValue t.card.rank)).sum := by
  induction trick with
  | nil => rfl
  | cons a t ih =>
    have ha := hwf a (by simp)
    unfold wellFormedCard at ha
    simp [calculatePoints, List.map_cons, List.sum_cons] at ih ⊢
    rw [ha]
    have := ih (fun x hx => hwf x (by simp [hx]))
    simp [calculatePoints] at this
    omega

theorem sum_map_filter_not_split {α : Type} (l : List α) (p : α → Bool) (f : α → Nat) :
    (l.map f).sum = ((l.filter (fun x => !(p x))).map f).sum + ((l.filter p).map f).sum := by
  induction l with
  | nil => simp
  | cons a t ih =>
    by_cases h : p a <;> simp [List.filter_cons, h, List.map_cons, List.sum_cons] <;> omega

/-- Claim C10: the point total recorded for a completed five-play trick is
the sum of the point values of all five cards played, the under-flagged
play included — it is the winner-eligible plays plus the under-flagged
plays together that are counted. -/
theorem trick_points_count_all_cards (trick : List Play)
    (hlen : trick.length = 5) (hwf : ∀ t ∈ trick, wellFormedCard t.card) :
    (completeTrickRecord trick).points = (trick.map (fun t => pointValue t.card.rank)).sum
      ∧ (trick.map (fun t => pointValue t.card.rank)).sum
          = ((trick.filter (fun t => !t.isUnderCard)).map (fun t => pointValue t.card.rank)).sum
            + ((trick.filter (fun t => t.isUnderCard)).map (fun t => pointValue t.card.rank)).sum := by
  clear hlen
  constructor
  · exact calculatePoints_map_card trick hwf
  · exact sum_map_filter_not_split trick (fun t => t.isUnderCard) (fun t => pointValue t.card.rank)

/-- Witness for C10 at the spec's example trick: 25 points in total, of
which the under card contributes 0 but a flagged ten would count equally. -/
theorem trick_points_count_all_cards_witness :
    (completeTrickRecord exTrick).points = (exTrick.map (fun t => pointValue t.card.rank)).sum
      ∧ (completeTrickRecord exTrick).points = 25 := by
  have h := trick_points_count_all_cards exTrick (by decide) (by decide)
  exact ⟨h.1, by decide⟩

/-- Claim C2, code divergence: in `stUnderReject` the picker voluntarily
plays the designated under card while obliged to follow trump; the play is
rejected, yet the `underCardPlayed` flag — set before the legal-move check
— remains mutated, so this rejection is not side-effect-free. -/
theorem playCard_rejection_mutates_state :
    (playCard stUnderReject 0 (Rank.r7, Suit.hearts)).2 = OpResult.err ErrCode.cannotPlayCard
      ∧ stUnderReject.underCardPlayed = false
      ∧ (playCard stUnderReject 0 (Rank.r7, Suit.hearts)).1.underCardPlayed = true := by
  refine ⟨by decide, by decide, by decide⟩

/-- Claim C3, code divergence: the picker of `stBuryQ` (going alone, no
under card) submits two Queens that are both in hand — a selection the
claim says must be accepted — and the code rejects it with the Queens/Jacks
restriction.  This matches the scenario of the repository's own test B1,
which expects success. -/
theorem bury_queens_rejected :
    (bury stBuryQ 0 [(Rank.Q, Suit.clubs), (Rank.Q, Suit.spades)]).2
        = OpResult.err ErrCode.cannotBuryQJ
      ∧ ([(Rank.Q, Suit.clubs), (Rank.Q, Suit.spades)] : List CardId).length = 2
      ∧ (∀ cid ∈ ([(Rank.Q, Suit.clubs), (Rank.Q, Suit.spades)] : List CardId),
          (stBuryQ.hands 0).any (fun c => decide (c.cid = cid)) = true)
      ∧ stBuryQ.underCardId = none
      ∧ stBuryQ.calledSuit = none
      ∧ stBuryQ.phase = Phase.burying
      ∧ stBuryQ.picker = some 0 := by
  refine ⟨by decide, by decide, by decide, by decide, by decide, by decide, by decide⟩

/-- Claim C4, code divergence: for the all-three-fail-aces hand of the
repository's Call-10 test, the resolver does return exactly the three
call-10 under options, and `goAlone` with all aces and all tens — but it
sets `mustSelectUnderCard := true`, and `callAce` consequently rejects a
call-10 without an under-card selection, although the claim (and the
repository's own tests) say no under-card selection is needed. -/
theorem callTen_requires_under_card :
    getCallableOptions handAllAces
        = { goAlone := false,
            options := [{ suit := Suit.hearts, rank := Rank.r10, ctype := CallType.under },
                        { suit := Suit.spades, rank := Rank.r10, ctype := CallType.under },
                        { suit := Suit.clubs, rank := Rank.r10, ctype := CallType.under }],
            mustSelectUnderCard := true, reason := none }
      ∧ getCallableOptions handAllAcesTens
        = { goAlone := true, options := [], mustSelectUnderCard := false,
            reason := some CallReason.allAcesAndTens }
      ∧ (callAce stCallTen 0 Suit.hearts false none).2 = OpResult.err ErrCode.needsUnderCard := by
  refine ⟨by decide, by decide, by decide⟩

/-- Counterexample to claim C9: in the call-10 state `stCallTenPlay`, seat 1
holds the called-suit identifying card (the called 10 of hearts), hearts is
led — and yet `playCard` accepts the king of hearts, a card other than the
identifying card. -/
theorem callTen_partner_not_forced :
    stCallTenPlay.calledSuit = some Suit.hearts
      ∧ stCallTenPlay.calledRank = Rank.r10
      ∧ stCallTenPlay.picker = some 0
      ∧ mkCard Rank.r10 Suit.hearts ∈ stCallTenPlay.hands 1
      ∧ leadESuit stCallTenPlay = some (ESuit.fail Suit.hearts)
      ∧ (Rank.K, Suit.hearts) ≠ ((Rank.r10, Suit.hearts) : CardId)
      ∧ (playCard stCallTenPlay 1 (Rank.K, Suit.hearts)).2 = OpResult.ok := by
  refine ⟨by decide, by decide, by decide, by decide, by decide, by decide, by decide⟩

theorem sum_map_update (l : List PlayerId) (x : PlayerId) (f g : PlayerId → Int)
    (hx : x ∈ l) (hnd : l.Nodup) (hfg : ∀ y ∈ l, y ≠ x → f y = g y) :
    (l.map f).sum = (l.map g).sum + f x - g x := by
  induction l with
  | nil => simp at hx
  | cons a t ih =>
    have hnc := List.nodup_cons.mp hnd
    by_cases hax : a = x
    · subst hax
      have hmap : t.map f = t.map g := List.map_congr_left (by
        intro y hy
        exact hfg y (List.mem_cons.mpr (Or.inr hy)) (fun hyx => hnc.1 (hyx ▸ hy)))
      simp only [List.map_cons, List.sum_cons, hmap]
      omega
    · have hxt : x ∈ t := by
        rcases List.mem_cons.mp hx with h | h
        · exact absurd h.symm hax
        · exact h
      have hfa : f a = g a := hfg a (List.mem_cons_self a t) hax
      have := ih hxt hnc.2 (fun y hy hyx => hfg y (List.mem_cons.mpr (Or.inr hy)) hyx)
      simp only [List.map_cons, List.sum_cons, hfa, this]
      omega

theorem sum_map_const_int (l : List PlayerId) (c : Int) :
    (l.map (fun _ => c)).sum = (l.length : Int) * c := by
  induction l with
  | nil => simp
  | cons a t ih =>
    simp only [List.map_cons, List.sum_cons, ih, List.length_cons]
    push_cast
    ring

theorem sum_map_ite_count (l : List PlayerId) (p : PlayerId → Bool) (A B : Int) :
    (l.map (fun x => if p x then A else B)).sum
      = (l.countP p : Int) * A + ((l.length : Int) - (l.countP p : Int)) * B := by
  induction l with
  | nil => simp
  | cons a t ih =>
    by_cases h : p a
    · simp only [List.map_cons, List.sum_cons, if_pos h, ih,
        List.countP_cons_of_pos _ _ h, List.length_cons]
      push_cast
      ring
    · simp only [List.map_cons, List.sum_cons, if_neg h, ih,
        List.countP_cons_of_neg _ _ h, List.length_cons]
      have hle : t.countP p ≤ t.length := List.countP_le_length p
      push_cast
      ring

theorem listMaxD_mem (l : List Nat) (h : l ≠ []) : listMaxD l ∈ l := by
  match l with
  | [] => exact absurd rfl h
  | x :: xs =>
    unfold listMaxD
    exact foldl_choice_mem max (by
      intro a b
      rcases Nat.le_total a b with hab | hab
      · right; exact Nat.max_eq_right hab
      · left; exact Nat.max_eq_left hab) xs x

theorem sum_three_level (l : List PlayerId) (pk : PlayerId) (op : Option PlayerId)
    (aa bb cc : Int) (h5 : l.length = 5) (hnd : l.Nodup) (hpkmem : pk ∈ l)
    (hop : ∀ q, op = some q → q ∈ l) :
    (l.map (fun pid => if some pk = some pid then aa
        else if op = some pid then bb else cc)).sum
      = (if op = none ∨ op = some pk then aa + 4 * cc else aa + bb + 3 * cc) := by
  have hstep := sum_map_update l pk
    (fun pid => if some pk = some pid then aa else if op = some pid then bb else cc)
    (fun pid => if op = some pid then bb else cc)
    hpkmem hnd (by
      intro y hy hyne
      exact if_neg (fun he => hyne (Option.some_injective _ he).symm))
  rw [hstep]
  simp only [if_pos rfl]
  cases op with
  | none =>
    have hsum : (l.map (fun pid => if (none : Option PlayerId) = some pid then bb else cc)).sum
        = (l.map (fun _ => cc)).sum :=
      congrArg List.sum (List.map_congr_left (fun y _ => by simp))
    rw [hsum, sum_map_const_int, h5]
    simp only [true_or, if_pos]
    simp
    ring
  | some q =>
    have hqmem := hop q rfl
    have hstep2 := sum_map_update l q
      (fun pid => if some q = some pid then bb else cc)
      (fun _ => cc)
      hqmem hnd (by
        intro y hy hyne
        exact if_neg (fun he => hyne (Option.some_injective _ he).symm))
    rw [hstep2, sum_map_const_int, h5]
    by_cases hqpk : q = pk
    · subst hqpk
      simp only [if_pos rfl, or_true, if_true]
      simp
      push_cast
      ring
    · have hne1 : ¬(some q = some pk) := fun he => hqpk (Option.some_injective _ he)
      have hcond : ¬(some q = none ∨ some q = some pk) := by
        rintro (h | h)
        · exact Option.noConfusion h
        · exact hqpk (Option.some_injective _ h)
      simp only [if_pos rfl, if_neg hne1, if_neg hcond]
      push_cast
      ring

theorem normal_scores_sum_zero (s : GameState) (pk : PlayerId)
    (h5 : s.players.length = 5) (hnd : s.players.Nodup)
    (hpk : s.picker = some pk) (hpkmem : pk ∈ s.players)
    (hop : ∀ q, s.partner = some q → q ∈ s.players) :
    (s.players.map (scoreNormalHand s).scores).sum = 0 := by
  show (s.players.map (normalScoresOf s)).sum = 0
  have hshape : ∀ pid ∈ s.players, normalScoresOf s pid
      = (fun pid => if some pk = some pid then
            (if pickersWinOf s then multiplierOf s * pickerMultOf s
             else -(multiplierOf s * pickerMultOf s))
          else if s.partner = some pid then
            (if pickersWinOf s then multiplierOf s else -(multiplierOf s))
          else (if pickersWinOf s then -(multiplierOf s) else multiplierOf s)) pid := by
    intro pid _
    unfold normalScoresOf
    rw [hpk]
  rw [List.map_congr_left hshape,
    sum_three_level s.players pk s.partner _ _ _ h5 hnd hpkmem hop]
  by_cases halone : s.partner = none ∨ s.partner = some pk
  · rw [if_pos halone]
    have hpm : pickerMultOf s = 4 := by
      unfold pickerMultOf isAloneOf
      rcases halone with h | h <;> simp [h, hpk]
    rw [hpm]
    by_cases hw : pickersWinOf s <;> simp [hw] <;> ring
  · rw [if_neg halone]
    have hpm : pickerMultOf s = 2 := by
      unfold pickerMultOf isAloneOf
      push_neg at halone
      rw [hpk]
      have h1 : decide (s.partner = none) = false := by
        simp [halone.1]
      have h2 : decide (s.partner = some pk) = false := by
        simp [halone.2]
      rw [h1, h2]
      simp
    rw [hpm]
    by_cases hw : pickersWinOf s <;> simp [hw] <;> ring

theorem schwanzer_scores_sum_zero (s : GameState)
    (h5 : s.players.length = 5) :
    (s.players.map (scoreSchwanzer s).scores).sum = 0 := by
  show (s.players.map (schwanzerScoresOf s)).sum = 0
  have hfun : ∀ pid ∈ s.players, schwanzerScoresOf s pid =
      (fun pid => if (decide (schwanzerPtsOf s pid = schwanzerMaxOf s) : Bool)
        then schwanzerLoserScoreOf s else schwanzerWinnerScoreOf s) pid := by
    intro pid _
    by_cases h : schwanzerPtsOf s pid = schwanzerMaxOf s <;> simp [schwanzerScoresOf, h]
  rw [List.map_congr_left hfun, sum_map_ite_count, h5]
  have hcount : s.players.countP (fun pid => decide (schwanzerPtsOf s pid = schwanzerMaxOf s))
      = (schwanzerLosersOf s).length := by
    unfold schwanzerLosersOf
    exact List.countP_eq_length_filter _ _
  have hne : s.players ≠ [] := by
    intro h
    rw [h] at h5
    simp at h5
  have hattain : ∃ pid ∈ s.players, schwanzerPtsOf s pid = schwanzerMaxOf s := by
    have hmem := listMaxD_mem (s.players.map (schwanzerPtsOf s)) (by simp [hne])
    obtain ⟨pid, hpid, hval⟩ := List.mem_map.mp hmem
    exact ⟨pid, hpid, hval⟩
  have hpos : 1 ≤ (schwanzerLosersOf s).length := by
    rw [← hcount]
    obtain ⟨pid, hpid, hval⟩ := hattain
    have hq : 0 < s.players.countP
        (fun pid => decide (schwanzerPtsOf s pid = schwanzerMaxOf s)) :=
      List.countP_pos_iff.mpr ⟨pid, hpid, decide_eq_true hval⟩
    omega
  have hle : (schwanzerLosersOf s).length ≤ 5 := by
    rw [← hcount]
    have := List.countP_le_length
      (fun pid => decide (schwanzerPtsOf s pid = schwanzerMaxOf s)) (l := s.players)
    omega
  rw [hcount]
  have hn : (schwanzerLosersOf s).length = 1 ∨ (schwanzerLosersOf s).length = 2
      ∨ (schwanzerLosersOf s).length = 3 ∨ (schwanzerLosersOf s).length = 4
      ∨ (schwanzerLosersOf s).length = 5 := by omega
  have hLW : ∀ n, (schwanzerLosersOf s).length = n →
      (n = 1 ∨ n = 2 ∨ n = 3 ∨ n = 4 ∨ n = 5) →
      ((n : Int) * schwanzerLoserScoreOf s + ((5 : Int) - (n : Int)) * schwanzerWinnerScoreOf s
        = 0) := by
    intro n hEq hcases
    have hL : schwanzerLoserScoreOf s = loserScoreSpec n := by
      unfold schwanzerLoserScoreOf loserScoreSpec
      rw [hEq]
    have hW : schwanzerWinnerScoreOf s = winnerScoreSpec n := by
      unfold schwanzerWinnerScoreOf winnerScoreSpec
      rw [hEq]
    rw [hL, hW]
    rcases hcases with h | h | h | h | h <;> subst h <;> norm_num [loserScoreSpec, winnerScoreSpec]
  have := hLW (schwanzerLosersOf s).length rfl hn
  exact this

/-- Claim C6: for every completed hand the five per-seat score deltas sum
to exactly zero — for a normal hand (given its picker, and partner when
revealed, are seated) and for a Schwanzer hand alike. -/
theorem scores_sum_to_zero (s : GameState)
    (h5 : s.players.length = 5) (hnd : s.players.Nodup) :
    (∀ pk, s.picker = some pk → pk ∈ s.players →
        (∀ q, s.partner = some q → q ∈ s.players) →
        (s.players.map (scoreNormalHand s).scores).sum = 0)
      ∧ (s.players.map (scoreSchwanzer s).scores).sum = 0 := by
  constructor
  · intro pk hpk hpkmem hop
    exact normal_scores_sum_zero s pk h5 hnd hpk hpkmem hop
  · exact schwanzer_scores_sum_zero s h5

/-- Witness for C6 at the concrete completed hand `stThirty` (its Schwanzer
branch scores the never-dealt empty hands, a five-way tie of zeros). -/
theorem scores_sum_to_zero_witness :
    (stThirty.players.map (scoreNormalHand stThirty).scores).sum = 0
      ∧ (stThirty.players.map (scoreSchwanzer stThirty).scores).sum = 0 := by
  have h := scores_sum_to_zero stThirty (by decide) (by decide)
  exact ⟨h.1 0 (by decide) (by decide) (by decide), h.2⟩

theorem calculateFailPoints_eq_spec :
    ∀ hand : List Card, calculateFailPoints hand = specSchwanzerPoints hand := by
  intro hand
  induction hand with
  | nil => rfl
  | cons c t ih =>
    show (if c.rank = Rank.Q then 3
          else if c.rank = Rank.J then 2
          else if c.suit = Suit.diamonds then 1 else 0) + calculateFailPoints t
        = specSchwanzerPoints (c :: t)
    unfold specSchwanzerPoints
    unfold specSchwanzerPoints at ih
    simp only [List.countP_cons]
    by_cases hQ : c.rank = Rank.Q
    · simp [hQ, ih]
      omega
    · by_cases hJ : c.rank = Rank.J
      · simp [hQ, hJ, ih]
        omega
      · by_cases hD : c.suit = Suit.diamonds
        · simp [hQ, hJ, hD, ih]
          omega
        · simp [hQ, hJ, hD, ih]

theorem schwanzerLoserScoreOf_eq_table (s : GameState) :
    schwanzerLoserScoreOf s = loserScoreSpec (schwanzerLosersOf s).length
      ∧ schwanzerWinnerScoreOf s = winnerScoreSpec (schwanzerLosersOf s).length := by
  unfold schwanzerLoserScoreOf schwanzerWinnerScoreOf loserScoreSpec winnerScoreSpec
  constructor <;>
    (generalize (schwanzerLosersOf s).length = n
     rcases n with _ | _ | _ | _ | _ | m <;> rfl)

/-- Claim C8: Schwanzer scoring computes each seat's points by the
Queen-3 / Jack-2 / non-court-diamond-1 rule (court diamonds counted once);
the seats tied for the maximum are exactly the losers; and each seat's
score follows the fixed table keyed by loser count (1 loser: -4 and +1
each; 2: -3 and +2; 3: -2 and +3; 4: -1 and +4; 5-way tie: all 0). -/
theorem schwanzer_scoring_matches_spec :
    (∀ hand : List Card, calculateFailPoints hand = specSchwanzerPoints hand)
      ∧ (∀ s : GameState,
          (scoreSchwanzer s).losers
              = s.players.filter (fun p =>
                  decide (calculateFailPoints (s.hands p) = (scoreSchwanzer s).maxSchwanzerPoints))
            ∧ ∀ p : PlayerId,
                (scoreSchwanzer s).scores p
                  = (if calculateFailPoints (s.hands p) = (scoreSchwanzer s).maxSchwanzerPoints
                     then loserScoreSpec (scoreSchwanzer s).losers.length
                     else winnerScoreSpec (scoreSchwanzer s).losers.length)) := by
  refine ⟨calculateFailPoints_eq_spec, ?_⟩
  intro s
  refine ⟨rfl, ?_⟩
  intro p
  show schwanzerScoresOf s p = _
  unfold schwanzerScoresOf
  rw [(schwanzerLoserScoreOf_eq_table s).1, (schwanzerLoserScoreOf_eq_table s).2]
  rfl

theorem completeHand_snd (s : GameState) : (completeHand s).2 = OpResult.ok := rfl

theorem completeTrick_snd (s : GameState) : (completeTrick s).2 = OpResult.ok := by
  unfold completeTrick
  split
  · rfl
  · split
    · exact completeHand_snd _
    · rfl

theorem playCardCommit_snd (s : GameState) (pid : PlayerId) (card : Card) (cid : CardId)
    (b : Bool) : (playCardCommit s pid card cid b).2 = OpResult.ok := by
  unfold playCardCommit
  split
  · exact completeTrick_snd _
  · rfl

theorem getPlayableCards_called_ace (hand : List Card) (t0 : Play) (rest : List Play)
    (cs : Suit) (b1 b2 : Bool)
    (hlead : getEffectiveSuit t0.card = ESuit.fail cs)
    (hace : ∃ a ∈ hand, a.suit = cs ∧ a.rank = Rank.A)
    (hcsnd : cs ≠ Suit.diamonds) :
    ∃ a0, getPlayableCards hand (t0 :: rest) (some cs) b1 b2 true = [a0]
      ∧ a0.rank = Rank.A ∧ a0.suit = cs := by
  obtain ⟨a, hamem, hasuit, harank⟩ := hace
  have haeff : getEffectiveSuit a = ESuit.fail cs := by
    unfold getEffectiveSuit isTrump
    rw [harank, hasuit]
    simp [hcsnd]
  have hamemf : a ∈ hand.filter (fun c => decide (getEffectiveSuit c = getEffectiveSuit t0.card)) := by
    rw [List.mem_filter]
    exact ⟨hamem, by rw [hlead]; exact decide_eq_true haeff⟩
  have hpos : 0 < (hand.filter
      (fun c => decide (getEffectiveSuit c = getEffectiveSuit t0.card))).length :=
    List.length_pos.mpr (List.ne_nil_of_mem hamemf)
  have hfind : ((hand.filter (fun c => decide (getEffectiveSuit c = getEffectiveSuit t0.card))).find?
      (fun c => decide (c.rank = Rank.A))).isSome :=
    List.find?_isSome.mpr ⟨a, hamemf, decide_eq_true harank⟩
  obtain ⟨a0, ha0⟩ := Option.isSome_iff_exists.mp hfind
  have ha0rank : a0.rank = Rank.A := of_decide_eq_true (List.find?_eq_some.mp ha0).1
  have ha0memf := List.mem_of_find?_eq_some ha0
  have ha0eff : getEffectiveSuit a0 = ESuit.fail cs := by
    have h2 := (List.mem_filter.mp ha0memf).2
    rw [hlead] at h2
    exact of_decide_eq_true h2
  have ha0suit : a0.suit = cs := by
    unfold getEffectiveSuit at ha0eff
    by_cases ht : isTrump a0
    · rw [if_pos ht] at ha0eff
      exact absurd ha0eff (by simp)
    · rw [if_neg ht] at ha0eff
      exact ESuit.fail.inj ha0eff
  refine ⟨a0, ?_, ha0rank, ha0suit⟩
  rw [hlead] at hpos ha0
  unfold getPlayableCards
  simp only [hlead]
  rw [if_pos (decide_eq_true hpos)]
  rw [if_pos (by simp)]
  rw [ha0]

/-- Claim C9 as amended: the forcing rule applies to normal (ace) calls —
when the called suit is led, a non-picker seat holding the called ace may
only play that ace — but not to the call-10 variant, where the legal-move
resolver looks for an ace and so the holder of the called 10 may play any
card of the called suit. -/
theorem called_ace_forcing (s : GameState) (pid : PlayerId) (cs : Suit) (c : Card)
    (hphase : s.phase = Phase.playing)
    (hturn : s.players.get? s.currentPlayerIndex = some pid)
    (hnp : s.picker ≠ some pid)
    (hcs : s.calledSuit = some cs)
    (hcsnd : cs ≠ Suit.diamonds)
    (hrank : s.calledRank = Rank.A)
    (hlead : ∃ t0 rest, s.currentTrick = t0 :: rest ∧ getEffectiveSuit t0.card = ESuit.fail cs)
    (hace : ∃ a ∈ s.hands pid, a.suit = cs ∧ a.rank = Rank.A)
    (hc : c ∈ s.hands pid) :
    ((playCard s pid c.cid).2 = OpResult.ok ↔ (c.rank = Rank.A ∧ c.suit = cs)) := by
  obtain ⟨t0, rest, htrick, hleadsuit⟩ := hlead
  obtain ⟨a, hamem, hasuit, harank⟩ := hace
  have hmust : mustPlayUnderB s pid = false := by
    unfold mustPlayUnderB
    rw [decide_eq_false hnp]
    simp
  have hipu : isPlayingUnderB s pid c.cid = false := by
    unfold isPlayingUnderB
    rw [decide_eq_false hnp]
    simp
  have hfind : ((s.hands pid).find? (fun x => decide (x.cid = c.cid))).isSome := by
    rw [List.find?_isSome]
    exact ⟨c, hc, decide_eq_true rfl⟩
  obtain ⟨card0, hcard0⟩ := Option.isSome_iff_exists.mp hfind
  have hhca : hasCalledAceB s pid = true := by
    unfold hasCalledAceB
    rw [hcs]
    rw [decide_eq_false hnp]
    simp only [Bool.not_false, Bool.true_and]
    exact List.any_eq_true.mpr ⟨a, hamem, by
      rw [hrank]
      rw [Bool.and_eq_true]
      exact ⟨decide_eq_true hasuit, decide_eq_true harank⟩⟩
  obtain ⟨a0, hres, ha0r, ha0s⟩ := getPlayableCards_called_ace (s.hands pid) t0 rest cs
    (!s.calledSuitFirstTrick) (decide (s.picker = some pid)) hleadsuit
    ⟨a, hamem, hasuit, harank⟩ hcsnd
  have hok : playableOK s pid c.cid = decide (a0.cid = c.cid) := by
    unfold playableOK
    rw [htrick, hcs, hhca, hres]
    simp
  by_cases hcc : a0.cid = c.cid
  · have hsucc : (playCard s pid c.cid).2 = OpResult.ok := by
      unfold playCard
      simp only [hphase, hturn, hmust, hcard0, hok, hcc]
      simp only [decide_eq_true_eq]
      simp
      exact playCardCommit_snd _ _ _ _ _
    rw [hsucc]
    have hcid : c.cid = (Rank.A, cs) := by
      rw [← hcc]
      unfold Card.cid
      rw [ha0r, ha0s]
    unfold Card.cid at hcid
    have h1 := (Prod.mk.injEq _ _ _ _).mp hcid
    exact ⟨fun _ => ⟨h1.1, h1.2⟩, fun _ => rfl⟩
  · have hfail : (playCard s pid c.cid).2 = OpResult.err ErrCode.cannotPlayCard := by
      unfold playCard
      simp only [hphase, hturn, hmust, hcard0, hok]
      simp only [decide_eq_true_eq]
      simp [hcc]
    rw [hfail]
    constructor
    · intro h
      exact absurd h (by simp)
    · intro h
      have : a0.cid = c.cid := by
        unfold Card.cid
        rw [ha0r, ha0s, h.1, h.2]
      exact absurd this hcc

/-- Witness for the amended C9 at the concrete normal-call state
`stAcePlay`: seat 1, holding the called ace of hearts with hearts led, has
the ace accepted and the king rejected. -/
theorem called_ace_forcing_witness :
    stAcePlay.calledRank = Rank.A
      ∧ (playCard stAcePlay 1 (mkCard Rank.A Suit.hearts).cid).2 = OpResult.ok
      ∧ (playCard stAcePlay 1 (mkCard Rank.K Suit.hearts).cid).2 ≠ OpResult.ok := by
  have h1 := called_ace_forcing stAcePlay 1 Suit.hearts (mkCard Rank.A Suit.hearts)
    (by decide) (by decide) (by decide) (by decide) (by decide) (by decide)
    ⟨{ playerId := 2, card := mkCard Rank.r9 Suit.hearts, isUnderCard := false }, [],
      by decide, by decide⟩
    ⟨mkCard Rank.A Suit.hearts, by decide, by decide, by decide⟩ (by decide)
  have h2 := called_ace_forcing stAcePlay 1 Suit.hearts (mkCard Rank.K Suit.hearts)
    (by decide) (by decide) (by decide) (by decide) (by decide) (by decide)
    ⟨{ playerId := 2, card := mkCard Rank.r9 Suit.hearts, isUnderCard := false }, [],
      by decide, by decide⟩
    ⟨mkCard Rank.A Suit.hearts, by decide, by decide, by decide⟩ (by decide)
  refine ⟨by decide, h1.mpr ⟨by decide, by decide⟩, fun hok => ?_⟩
  have hk := h2.mp hok
  exact absurd hk.1 (by decide)
